import Mathlib

/-!
Shallow embedding of the calendar synchronization and availability engine
(`app/services/calendar.py`, `app/services/google_calendar.py`,
`app/repositories/calendar.py`, `app/schemas/calendar.py`).

Modelling conventions:
* Naive `datetime` values are integers (seconds); a `date` is the timestamp of
  its midnight, a `time` is seconds since midnight, `datetime.combine` is
  addition. `timedelta(minutes=m)` is `m * 60` seconds.
* UUIDs are `Nat`; the zero UUID `00000000-...` used for remote read-time
  projections is `0`.
* Database tables are Lean lists of records in insertion order. SQL
  `find_one`/`LIMIT 1` is `List.find?`, `UPDATE` is `List.map` over the rows,
  `ORDER BY start_datetime ASC` is a stable insertion sort.
* Python `str.lower()` and SQL `LOWER` are `Char.toLower` mapped over the
  characters (they agree on ASCII, which is all the engine's queries rely on);
  SQL `LIKE` is `likeChars` with `%`/`_` wildcard semantics.
* Blocking I/O against Google (token exchange, refresh, event CRUD) is passed
  in as an explicit `Except GoogleCalendarError _` outcome parameter: the
  embedded function consumes the outcome exactly where the Python code would
  `await` the call, and `try/except GoogleCalendarError` becomes a `match`.
  `datetime.utcnow()` is an explicit `now` parameter.
* `created_at`/`updated_at` bookkeeping columns are omitted: no query or
  branch of the embedded operations reads them.
-/

deriving instance DecidableEq for Except

namespace CalendarSpec

/-! ### String primitives: Python `lower/split`, SQL `LOWER`/`LIKE` -/

/-- Python `str.strip()` with no argument: drop leading and trailing
whitespace. -/
def pyStripChars (l : List Char) : List Char :=
  ((l.dropWhile Char.isWhitespace).reverse.dropWhile Char.isWhitespace).reverse

/-- Python `str.lower()` and SQL `LOWER(...)`, on the character list of a
string (ASCII case mapping). -/
def toLowerChars (l : List Char) : List Char := l.map Char.toLower

/-- SQL `LIKE` pattern matching: `%` matches any run of characters, `_`
matches exactly one character, anything else matches itself. -/
def likeChars : List Char → List Char → Bool
  | [], s => s.isEmpty
  | p :: ps, s =>
    if p = '%' then s.tails.any (fun t => likeChars ps t)
    else
      match s with
      | [] => false
      | c :: s2 => (p == '_' || p == c) && likeChars ps s2

/-- `p` is a leading block of `s` (character-by-character equality). -/
def startsWithChars : List Char → List Char → Bool
  | [], _ => true
  | _ :: _, [] => false
  | p :: ps, c :: cs => p == c && startsWithChars ps cs

/-- `p` occurs contiguously somewhere inside `s` (plain substring test). -/
def containsChars (p : List Char) : List Char → Bool
  | [] => startsWithChars p []
  | c :: cs => startsWithChars p (c :: cs) || containsChars p cs

/-- Helper for `splitWs`: accumulates the current word (reversed). -/
def splitWsAux : List Char → List Char → List (List Char)
  | [], acc => if acc.isEmpty then [] else [acc.reverse]
  | c :: cs, acc =>
    if c.isWhitespace then
      if acc.isEmpty then splitWsAux cs [] else acc.reverse :: splitWsAux cs []
    else
      splitWsAux cs (c :: acc)

/-- Python `str.split()` with no argument: split on runs of whitespace,
discarding empty pieces. -/
def splitWs (l : List Char) : List (List Char) := splitWsAux l []

/-- `check_for_duplicate`'s keyword: first word of `title.lower().split()`,
or the empty string when the title has no words
(`title_words[0] if title_words else ""`). -/
def keywordOf (title : String) : List Char :=
  (splitWs (toLowerChars title.data)).headD []

/-- Python truthiness of an optional string (`None` and `""` are falsy). -/
def strTruthy : Option String → Bool
  | none => false
  | some s => !(s == "")

/-- Python `x or default` for an optional string (`None`/`""` fall through). -/
def pyStrOr (o : Option String) (d : String) : String :=
  match o with
  | some s => if s == "" then d else s
  | none => d

/-- Python `x or default` for an optional integer (`None`/`0` fall through). -/
def pyIntOr (o : Option Int) (d : Int) : Int :=
  match o with
  | some v => if v == 0 then d else v
  | none => d

/-! ### Data model (`app/schemas/calendar.py`, `events` table) -/

/-- `SyncStatus` enum. `local_` is the `"local"` status. -/
inductive SyncStatus
  | local_
  | synced
  | pendingSync
  | syncFailed
deriving DecidableEq, Repr

/-- `EventSource` enum. -/
inductive EventSource
  | app
  | google
deriving DecidableEq, Repr

/-- A row of the `events` table / an `EventResponse`. -/
structure EventRec where
  id : Nat
  tenantId : Nat
  title : String
  description : Option String := none
  location : Option String := none
  startDatetime : Int
  endDatetime : Option Int := none
  timezone : String := "America/Argentina/Buenos_Aires"
  recurrenceRule : Option String := none
  createdBy : Option Nat := none
  idempotencyKey : Option String := none
  googleEventId : Option String := none
  googleCalendarId : Option String := none
  syncStatus : SyncStatus := .local_
  source : EventSource := .app
  lastSyncedAt : Option Int := none
deriving DecidableEq, Repr

/-- `GoogleCalendarError`: the single typed error all Google calls raise. -/
structure GoogleCalendarError where
  message : String
  errorCode : Option String := none
deriving DecidableEq, Repr

/-- Ordering used by every `ORDER BY start_datetime ASC` and by the
`events.sort(key=lambda e: e.start_datetime)` merge step (a stable sort,
like Python's). -/
def sortByStart (l : List EventRec) : List EventRec :=
  List.insertionSort (fun a b => a.startDatetime ≤ b.startDatetime) l

namespace CalendarRepo

/-! ### Event repository (`app/repositories/calendar.py`) -/

/-- The row hit by `ON CONFLICT (tenant_id, idempotency_key) WHERE
idempotency_key IS NOT NULL`, if any. -/
def findIdemCollision (tenantId : Nat) (idempotencyKey : Option String)
    (events : List EventRec) : Option EventRec :=
  match idempotencyKey with
  | none => none
  | some k => events.find? fun r =>
      r.tenantId == tenantId && r.idempotencyKey == some k

/-- `create_event` (repository): `INSERT ... ON CONFLICT (tenant_id,
idempotency_key) WHERE idempotency_key IS NOT NULL DO UPDATE SET id =
events.id RETURNING *`. On a key collision no new row is inserted and the
existing row is returned; otherwise the fresh row (id `freshId`) is appended.
Returns (new table, returned row). -/
def createEvent (events : List EventRec) (freshId : Nat) (tenantId : Nat)
    (title : String) (startDatetime : Int) (endDatetime : Option Int)
    (description : Option String) (location : Option String)
    (timezone : String) (recurrenceRule : Option String)
    (createdBy : Option Nat) (idempotencyKey : Option String)
    (googleEventId : Option String) (googleCalendarId : Option String)
    (syncStatus : SyncStatus) (source : EventSource) :
    List EventRec × EventRec :=
  match findIdemCollision tenantId idempotencyKey events with
  | some existing => (events, existing)
  | none =>
    let r : EventRec :=
      { id := freshId, tenantId, title, description, location, startDatetime,
        endDatetime, timezone, recurrenceRule, createdBy, idempotencyKey,
        googleEventId, googleCalendarId, syncStatus, source,
        lastSyncedAt := none }
    (events ++ [r], r)

/-- `new` when present, otherwise keep `cur` (an `UPDATE ... SET` on an
optional column that only fires `if new is not None`). -/
def setIfSome {α : Type} (new cur : Option α) : Option α :=
  match new with
  | some v => some v
  | none => cur

/-- The `SET` clause of `update_event`: each field is written only when the
corresponding argument is not `NULL` (`if x is not None`). -/
def applyEventUpdate (title description location : Option String)
    (startDatetime endDatetime : Option Int) (recurrenceRule : Option String)
    (syncStatus : Option SyncStatus) (googleEventId : Option String)
    (lastSyncedAt : Option Int) (r : EventRec) : EventRec :=
  { r with
    title := title.getD r.title
    description := setIfSome description r.description
    location := setIfSome location r.location
    startDatetime := startDatetime.getD r.startDatetime
    endDatetime := setIfSome endDatetime r.endDatetime
    recurrenceRule := setIfSome recurrenceRule r.recurrenceRule
    syncStatus := syncStatus.getD r.syncStatus
    googleEventId := setIfSome googleEventId r.googleEventId
    lastSyncedAt := setIfSome lastSyncedAt r.lastSyncedAt }

/-- `update_event` (repository): `UPDATE events SET ... WHERE tenant_id = $1
AND id = $2 RETURNING *`. Returns (new table, updated row if it existed). -/
def updateEvent (events : List EventRec) (tenantId eventId : Nat)
    (title description location : Option String)
    (startDatetime endDatetime : Option Int) (recurrenceRule : Option String)
    (syncStatus : Option SyncStatus) (googleEventId : Option String)
    (lastSyncedAt : Option Int) : List EventRec × Option EventRec :=
  let upd := applyEventUpdate title description location startDatetime
    endDatetime recurrenceRule syncStatus googleEventId lastSyncedAt
  let events2 := events.map fun r =>
    if r.tenantId == tenantId && r.id == eventId then upd r else r
  (events2, (events.find? fun r => r.tenantId == tenantId && r.id == eventId).map upd)

/-- `get_event_by_id`: `SELECT * FROM events WHERE tenant_id = $1 AND id = $2`. -/
def getEventById (tenantId eventId : Nat) (events : List EventRec) :
    Option EventRec :=
  events.find? fun r => r.tenantId == tenantId && r.id == eventId

/-- `delete_event` (repository): `DELETE FROM events WHERE tenant_id = $1 AND
id = $2`; the returned flag is `result == "DELETE 1"` (exactly one row went
away). -/
def deleteEvent (tenantId eventId : Nat) (events : List EventRec) :
    List EventRec × Bool :=
  let remaining := events.filter fun r => !(r.tenantId == tenantId && r.id == eventId)
  (remaining, events.length == remaining.length + 1)

/-- `get_events_in_range`: `SELECT * ... WHERE tenant_id = $1 AND
start_datetime >= $2 AND start_datetime <= $3 ORDER BY start_datetime ASC`. -/
def getEventsInRange (tenantId : Nat) (rangeStart rangeEnd : Int)
    (events : List EventRec) : List EventRec :=
  sortByStart (events.filter fun r =>
    r.tenantId == tenantId && decide (rangeStart ≤ r.startDatetime)
      && decide (r.startDatetime ≤ rangeEnd))

/-- The `WHERE` clause of `get_events`: tenant filter, optional
`start_datetime >= combine(start_date, time.min)`, optional
`start_datetime <= combine(end_date, time.max)` (i.e. strictly before the
next midnight, at the store's finest granularity), optional
`LOWER(title) LIKE LOWER('%q%') OR LOWER(description) LIKE LOWER('%q%')`
(a `NULL` description never matches). -/
def getEventsFilter (tenantId : Nat) (startDate endDate : Option Int)
    (searchQuery : Option String) (r : EventRec) : Bool :=
  r.tenantId == tenantId
    && (match startDate with
        | some d => decide (d ≤ r.startDatetime)
        | none => true)
    && (match endDate with
        | some d => decide (r.startDatetime < d + 86400)
        | none => true)
    && (match searchQuery with
        | some q =>
          likeChars (toLowerChars ('%' :: q.data ++ ['%']))
              (toLowerChars r.title.data)
            || (match r.description with
                | some dsc => likeChars (toLowerChars ('%' :: q.data ++ ['%']))
                    (toLowerChars dsc.data)
                | none => false)
        | none => true)

/-- `get_events`: filtered rows ordered by start time, paged with
`LIMIT $n OFFSET $m`; also returns the unpaged `COUNT(*)`. -/
def getEvents (tenantId : Nat) (startDate endDate : Option Int)
    (searchQuery : Option String) (limit : Nat := 50) (offset : Nat := 0)
    (events : List EventRec) : List EventRec × Nat :=
  let filtered := events.filter (getEventsFilter tenantId startDate endDate searchQuery)
  (((sortByStart filtered).drop offset).take limit, filtered.length)

/-- `find_potential_duplicate`: `SELECT * FROM events WHERE tenant_id = $1 AND
ABS(EXTRACT(EPOCH FROM start_datetime - $2)) < $3 AND LOWER(title) LIKE
LOWER($4) LIMIT 1` with `$3 = minutes_threshold * 60` and
`$4 = '%' + title_keyword + '%'`. -/
def findPotentialDuplicate (tenantId : Nat) (startDatetime : Int)
    (titleKeyword : List Char) (minutesThreshold : Nat := 30)
    (events : List EventRec) : Option EventRec :=
  events.find? fun r =>
    r.tenantId == tenantId
      && decide ((r.startDatetime - startDatetime).natAbs < minutesThreshold * 60)
      && likeChars (toLowerChars ('%' :: titleKeyword ++ ['%']))
          (toLowerChars r.title.data)

end CalendarRepo

/-! ### Event schemas (`app/schemas/calendar.py`) -/

/-- `EventCreate` request. `eventDate` is the midnight timestamp of the date,
`startTime` is seconds since midnight. -/
structure EventCreate where
  title : String
  description : Option String := none
  location : Option String := none
  eventDate : Int
  startTime : Option Int := none
  durationMinutes : Int := 60
  timezone : String := "America/Argentina/Buenos_Aires"
  recurrenceRule : Option String := none
  idempotencyKey : Option String := none
deriving DecidableEq, Repr

/-- The pydantic validation constraints on `EventCreate` that matter here:
`title` has `min_length=1, max_length=200` and `duration_minutes` has
`ge=15, le=1440`. -/
def EventCreateValid (d : EventCreate) : Prop :=
  1 ≤ d.title.length ∧ d.title.length ≤ 200 ∧
    15 ≤ d.durationMinutes ∧ d.durationMinutes ≤ 1440

/-- `EventUpdate` patch. -/
structure EventUpdate where
  title : Option String := none
  description : Option String := none
  location : Option String := none
  eventDate : Option Int := none
  startTime : Option Int := none
  durationMinutes : Option Int := none
deriving DecidableEq, Repr

/-- `DuplicateCheckResponse` (the presentation-only `similarity_score` and
`message` fields are omitted; no caller branches on them). -/
structure DuplicateCheckResponse where
  hasDuplicate : Bool
  existingEvent : Option EventRec
deriving DecidableEq, Repr

/-- `EventWithDuplicateCheck`: result of a create. -/
structure EventWithDuplicateCheck where
  event : Option EventRec
  duplicateWarning : Option DuplicateCheckResponse
  created : Bool
deriving DecidableEq, Repr

namespace CalendarService

/-! ### Duplicate detection (`check_for_duplicate`) -/

/-- `check_for_duplicate`: keyword = first word of the lowercased title,
then `find_potential_duplicate` with the 30-minute threshold. -/
def checkForDuplicate (tenantId : Nat) (startDatetime : Int) (title : String)
    (events : List EventRec) : DuplicateCheckResponse :=
  let keyword := keywordOf title
  match CalendarRepo.findPotentialDuplicate tenantId startDatetime keyword 30 events with
  | some d => { hasDuplicate := true, existingEvent := some d }
  | none => { hasDuplicate := false, existingEvent := none }

/-! ### Event CRUD (`app/services/calendar.py`) -/

/-- The Google event object returned by `gcal_service.create_event`; the
service only reads its `id`. -/
structure GCreatedEvent where
  id : String
deriving DecidableEq, Repr

/-- `create_event` (service). Computes `start = combine(event_date,
start_time or 09:00)` and `end = start + duration`, runs the duplicate gate,
persists, and optionally propagates to Google; a `GoogleCalendarError` from
the remote create leaves the row `pending_sync`. `remoteCreate` is the
outcome `gcal_service.create_event` would produce if called; `freshId` is the
id the insert would allocate; `now` is `datetime.utcnow()`. Returns (new
events table, response). The function is total: no exception escapes to the
caller. -/
def createEvent (tenantId : Nat) (data : EventCreate) (createdBy : Option Nat)
    (syncToGoogle : Bool) (userIdForSync : Option Nat)
    (events : List EventRec) (freshId : Nat) (now : Int)
    (remoteCreate : Except GoogleCalendarError GCreatedEvent) :
    List EventRec × EventWithDuplicateCheck :=
  let startDt := data.eventDate + data.startTime.getD (9 * 3600)
  let endDt := startDt + data.durationMinutes * 60
  let duplicate := checkForDuplicate tenantId startDt data.title events
  if duplicate.hasDuplicate then
    (events, { event := none, duplicateWarning := some duplicate, created := false })
  else
    let (events1, record) := CalendarRepo.createEvent events freshId tenantId
      data.title startDt (some endDt) data.description data.location
      data.timezone data.recurrenceRule createdBy data.idempotencyKey
      none none (if syncToGoogle then .pendingSync else .local_) .app
    if syncToGoogle && userIdForSync.isSome then
      match remoteCreate with
      | .ok googleEvent =>
        let (events2, _) := CalendarRepo.updateEvent events1 tenantId record.id
          none none none none none none (some .synced) (some googleEvent.id) (some now)
        let ev := { record with googleEventId := some googleEvent.id,
                                syncStatus := SyncStatus.synced }
        (events2, { event := some ev, duplicateWarning := none, created := true })
      | .error _ =>
        let (events2, _) := CalendarRepo.updateEvent events1 tenantId record.id
          none none none none none none (some .pendingSync) none none
        let ev := { record with syncStatus := SyncStatus.pendingSync }
        (events2, { event := some ev, duplicateWarning := none, created := true })
    else
      (events1, { event := some record, duplicateWarning := none, created := true })

end CalendarService

/-! ### Google Calendar credentials, OAuth states, users (repository rows) -/

/-- A row of `google_calendar_credentials` (one per user, upsert semantics). -/
structure GoogleCredsRec where
  userId : Nat
  tenantId : Nat
  accessToken : String
  refreshToken : String
  tokenExpiresAt : Int
  calendarId : String := "primary"
  scopes : List String := []
deriving DecidableEq, Repr

/-- A row of `oauth_states`. -/
structure OAuthStateRec where
  state : String
  userPhone : String
  tenantId : Option Nat := none
  redirectUrl : Option String := none
  expiresAt : Int
  usedAt : Option Int := none
deriving DecidableEq, Repr

/-- A row of `users` (the columns the engine reads). -/
structure UserRec where
  id : Nat
  tenantId : Nat
  phone : String
  isActive : Bool := true
deriving DecidableEq, Repr

namespace CalendarRepo

/-- `get_google_credentials_by_user`: `SELECT * ... WHERE user_id = $1`. -/
def getGoogleCredentialsByUser (userId : Nat) (creds : List GoogleCredsRec) :
    Option GoogleCredsRec :=
  creds.find? fun c => c.userId == userId

/-- Default scopes filled in by `upsert_google_credentials`. -/
def defaultScopes : List String :=
  ["https://www.googleapis.com/auth/calendar.events",
   "https://www.googleapis.com/auth/calendar.readonly"]

/-- `upsert_google_credentials`: `INSERT ... ON CONFLICT (user_id) DO UPDATE
SET access_token, refresh_token, token_expires_at, calendar_id, scopes`. -/
def upsertGoogleCredentials (userId tenantId : Nat)
    (accessToken refreshToken : String) (tokenExpiresAt : Int)
    (calendarId : String := "primary") (scopes : Option (List String) := none)
    (creds : List GoogleCredsRec) : List GoogleCredsRec :=
  let scopes := scopes.getD defaultScopes
  match creds.find? (fun c => c.userId == userId) with
  | some _ => creds.map fun c =>
      if c.userId == userId then
        { c with accessToken, refreshToken, tokenExpiresAt, calendarId, scopes }
      else c
  | none =>
    creds ++ [{ userId, tenantId, accessToken, refreshToken, tokenExpiresAt,
                calendarId, scopes }]

/-- `update_google_tokens`: after a refresh, `UPDATE ... WHERE user_id = $1`
writing the refresh token only when one was supplied (`if refresh_token:`,
Python truthiness). -/
def updateGoogleTokens (userId : Nat) (accessToken : String)
    (tokenExpiresAt : Int) (refreshToken : Option String)
    (creds : List GoogleCredsRec) : List GoogleCredsRec :=
  if strTruthy refreshToken then
    creds.map fun c =>
      if c.userId == userId then
        { c with accessToken, refreshToken := refreshToken.getD c.refreshToken,
                 tokenExpiresAt }
      else c
  else
    creds.map fun c =>
      if c.userId == userId then { c with accessToken, tokenExpiresAt } else c

/-- `get_oauth_state`: `SELECT * FROM oauth_states WHERE state = $1 AND
used_at IS NULL AND expires_at > NOW()`. -/
def getOauthState (stateStr : String) (now : Int)
    (states : List OAuthStateRec) : Option OAuthStateRec :=
  states.find? fun r =>
    r.state == stateStr && r.usedAt == none && decide (now < r.expiresAt)

/-- `mark_oauth_state_used`: `UPDATE oauth_states SET used_at = NOW() WHERE
state = $1` — note: no `used_at IS NULL` guard in the source. -/
def markOauthStateUsed (stateStr : String) (now : Int)
    (states : List OAuthStateRec) : List OAuthStateRec :=
  states.map fun r =>
    if r.state == stateStr then { r with usedAt := some now } else r

/-- Phone normalization in `get_user_by_phone`: strip, ensure a leading `+`,
and turn `+54` numbers with a 10-digit remainder into `+549` mobiles
(character-list rendering of the Python string operations). -/
def normalizePhone (phone : List Char) : List Char :=
  let normalized := pyStripChars phone
  let normalized :=
    if startsWithChars "+".data normalized then normalized else '+' :: normalized
  if startsWithChars "+54".data normalized
      && !(startsWithChars "+549".data normalized) then
    let rest := normalized.drop 3
    if rest.length == 10 then "+549".data ++ rest else normalized
  else normalized

/-- The `phone_variants` list searched with `phone = ANY($1)`. -/
def phoneVariants (phone : List Char) : List (List Char) :=
  let n := normalizePhone phone
  if startsWithChars "+549".data n then [n, "+54".data ++ n.drop 4] else [n]

/-- `get_user_by_phone`: first active user whose phone is one of the
variants. -/
def getUserByPhone (phone : String) (users : List UserRec) : Option UserRec :=
  users.find? fun u => (phoneVariants phone.data).contains u.phone.data && u.isActive

end CalendarRepo

namespace GcalService

/-! ### Google Calendar API wrapper (`app/services/google_calendar.py`) -/

/-- The `google.oauth2.credentials.Credentials` object as the wrapper builds
it (the fields the engine depends on). -/
structure Credentials where
  token : String
  refreshToken : String
  scopes : List String
deriving DecidableEq, Repr

/-- Token payload returned by `refresh_access_token`; `expires_in` is read
unconditionally there, `refresh_token` may be absent. -/
structure RefreshTokenData where
  accessToken : String
  refreshToken : Option String := none
  expiresIn : Int
deriving DecidableEq, Repr

/-- `get_valid_credentials`: load stored credentials; if
`token_expires_at <= utcnow() + 5 minutes`, refresh, persist the new token
set via `update_google_tokens`, and return credentials carrying the new
access token (retaining the stored refresh token when the response omits
one); on `GoogleCalendarError` from the refresh return `none`. The third
component counts the `refresh_access_token` calls made. -/
def getValidCredentials (userId : Nat) (now : Int)
    (creds : List GoogleCredsRec)
    (refreshOutcome : Except GoogleCalendarError RefreshTokenData) :
    Option Credentials × List GoogleCredsRec × Nat :=
  match CalendarRepo.getGoogleCredentialsByUser userId creds with
  | none => (none, creds, 0)
  | some c =>
    if c.tokenExpiresAt ≤ now + 5 * 60 then
      match refreshOutcome with
      | .error _ => (none, creds, 1)
      | .ok tokenData =>
        let expiresAt := now + tokenData.expiresIn
        let creds2 := CalendarRepo.updateGoogleTokens userId
          tokenData.accessToken expiresAt tokenData.refreshToken creds
        (some { token := tokenData.accessToken,
                refreshToken := tokenData.refreshToken.getD c.refreshToken,
                scopes := c.scopes },
         creds2, 1)
    else
      (some { token := c.accessToken, refreshToken := c.refreshToken,
              scopes := c.scopes },
       creds, 0)

/-- A Google Calendar event as it comes back from `list_events`, after
`parse_google_datetime` (the string-format parsing itself is out of the
embedded scope; these are the parsed fields `google_event_to_local`
consumes, each `Option` when the corresponding key may be absent). -/
structure GEvent where
  id : Option String := none
  summary : Option String := none
  description : Option String := none
  location : Option String := none
  startDatetime : Int
  endDatetime : Option Int := none
  timeZone : Option String := none
deriving DecidableEq, Repr

/-- Token payload returned by `exchange_code_for_tokens`; the callback reads
`expires_in` and `refresh_token` with `.get` defaults. -/
structure ExchangeTokenData where
  accessToken : String
  refreshToken : Option String := none
  expiresIn : Option Int := none
deriving DecidableEq, Repr

end GcalService

namespace CalendarService

/-! ### List / update / delete / availability / OAuth callback -/

/-- `list_events`' mirrored-id set: `{e.google_event_id for e in events if
e.google_event_id}` (Python truthiness drops `None` and `""`). -/
def localGoogleIds (records : List EventRec) : List String :=
  records.filterMap fun e =>
    match e.googleEventId with
    | some i => if i == "" then none else some i
    | none => none

/-- `g_event.get("id") in local_google_ids` (an absent id is never in the
set). -/
def gidMem (gid : Option String) (ids : List String) : Bool :=
  match gid with
  | some i => ids.contains i
  | none => false

/-- The read-time projection `list_events` builds for an unmirrored remote
event: zero UUID, `source=google`, `sync_status=synced`, fields from
`google_event_to_local`. -/
def googleEventProjection (tenantId : Nat) (g : GcalService.GEvent) : EventRec :=
  { id := 0
    tenantId
    title := g.summary.getD "Sin t√≠tulo"
    description := g.description
    location := g.location
    startDatetime := g.startDatetime
    endDatetime := g.endDatetime
    timezone := g.timeZone.getD "America/Argentina/Buenos_Aires"
    recurrenceRule := none
    createdBy := none
    idempotencyKey := none
    googleEventId := g.id
    googleCalendarId := none
    syncStatus := .synced
    source := .google
    lastSyncedAt := none }

/-- `EventListResponse` (the date range echoes the effective query dates). -/
structure EventListResult where
  events : List EventRec
  count : Nat
  dateRangeStart : Int
  dateRangeEnd : Int
deriving DecidableEq, Repr

/-- The local rows `list_events` fetches: `get_events` over the effective
date range (defaults: today / start + 7 days). -/
def listEventsLocalRecords (tenantId : Nat) (startDate endDate : Option Int)
    (searchQuery : Option String) (events : List EventRec) (today : Int) :
    List EventRec :=
  let sd := startDate.getD today
  let ed := endDate.getD (sd + 7 * 86400)
  (CalendarRepo.getEvents tenantId (some sd) (some ed) searchQuery 50 0 events).1

/-- `list_events` (service): fetch local rows for the date range (defaults:
today / start + 7 days), collect the mirrored remote ids, optionally fetch
remote events (`remoteList` is the outcome `gcal_service.list_events` would
produce), append a projection for each remote event whose id is not
mirrored, swallow remote failure, and sort everything by start time. The
events table is only read: nothing is persisted. -/
def listEvents (tenantId : Nat) (startDate endDate : Option Int)
    (searchQuery : Option String) (includeGoogle : Bool)
    (userIdForGoogle : Option Nat) (events : List EventRec) (today : Int)
    (remoteList : Except GoogleCalendarError (List GcalService.GEvent)) :
    EventListResult :=
  let sd := startDate.getD today
  let ed := endDate.getD (sd + 7 * 86400)
  let records := listEventsLocalRecords tenantId startDate endDate searchQuery
    events today
  let ids := localGoogleIds records
  let merged :=
    if includeGoogle && userIdForGoogle.isSome then
      match remoteList with
      | .ok gs =>
        records ++ (gs.filter fun g => !(gidMem g.id ids)).map
          (googleEventProjection tenantId)
      | .error _ => records
    else records
  { events := sortByStart merged
    count := merged.length
    dateRangeStart := sd
    dateRangeEnd := ed }

/-- Python `datetime.date()` of a timestamp: its midnight (floor). -/
def dateOf (dt : Int) : Int := (Int.ediv dt 86400) * 86400

/-- Python `datetime.time()` of a timestamp: seconds since its midnight. -/
def timeOf (dt : Int) : Int := Int.emod dt 86400

/-- Python `timedelta.seconds` of a duration of `td` seconds: the seconds
component after whole days are taken out (always in `[0, 86400)`). -/
def timedeltaSecondsPart (td : Int) : Int := Int.emod td 86400

/-- `update_event` (service): 404 if the event does not exist; recompute
start/end only when the patch carries a date or a time, taking the duration
from the patch or else from the stored row
(`(end - start).seconds // 60`, or 60 when the row has no end); mark
`pending_sync` when the row has a Google id; propagate to Google
best-effort (`remoteUpdate` is the outcome `gcal_service.update_event`
would produce), flipping to `synced` only on success. Returns the response
built from the first repository update. -/
def updateEvent (tenantId eventId : Nat) (data : EventUpdate)
    (userIdForSync : Option Nat) (events : List EventRec) (now : Int)
    (remoteUpdate : Except GoogleCalendarError Unit) :
    Except String (List EventRec × EventRec) :=
  match CalendarRepo.getEventById tenantId eventId events with
  | none => .error "Event not found"
  | some existing =>
    let (newStartDt, newEndDt) : Option Int × Option Int :=
      if data.eventDate.isSome || data.startTime.isSome then
        let currentStart := existing.startDatetime
        let newDate := data.eventDate.getD (dateOf currentStart)
        let newTime := data.startTime.getD (timeOf currentStart)
        let ns := newDate + newTime
        let duration := pyIntOr data.durationMinutes
          (match existing.endDatetime with
           | some e => Int.ediv (timedeltaSecondsPart (e - existing.startDatetime)) 60
           | none => 60)
        (some ns, some (ns + duration * 60))
      else (none, none)
    let (events1, record?) := CalendarRepo.updateEvent events tenantId eventId
      data.title data.description data.location newStartDt newEndDt none
      (if strTruthy existing.googleEventId then some .pendingSync else none)
      none none
    match record? with
    | none => .error "Event not found"
    | some record =>
      if strTruthy existing.googleEventId && userIdForSync.isSome then
        match remoteUpdate with
        | .ok _ =>
          let (events2, _) := CalendarRepo.updateEvent events1 tenantId eventId
            none none none none none none (some .synced) none (some now)
          .ok (events2, record)
        | .error _ => .ok (events1, record)
      else
        .ok (events1, record)

/-- `delete_event` (service): 404 if the event does not exist; when the row
has a Google id and a sync user is supplied, a best-effort remote delete is
attempted (its outcome, success or `GoogleCalendarError`, is swallowed —
hence the unused `_remoteDelete`), then the local row is removed
unconditionally. The last component counts `gcal_service.delete_event`
calls. -/
def deleteEvent (tenantId eventId : Nat) (userIdForSync : Option Nat)
    (events : List EventRec)
    (_remoteDelete : Except GoogleCalendarError Bool) :
    Except String (List EventRec × Bool × Nat) :=
  match CalendarRepo.getEventById tenantId eventId events with
  | none => .error "Event not found"
  | some existing =>
    let remoteAttempts :=
      if strTruthy existing.googleEventId && userIdForSync.isSome then 1 else 0
    let (events1, ok) := CalendarRepo.deleteEvent tenantId eventId events
    .ok (events1, ok, remoteAttempts)

/-- `AgentAvailabilityResponse`. Suggested times are seconds since the
queried date's midnight. -/
structure AvailabilityResult where
  available : Bool
  conflicts : List EventRec
  suggestedTimes : List Int
deriving DecidableEq, Repr

/-- The overlap test `event_start < end AND event_end > start` with a
missing end defaulted to one hour (`record["end_datetime"] or event_start +
timedelta(hours=1)`). -/
def eventEndOrHour (r : EventRec) : Int :=
  r.endDatetime.getD (r.startDatetime + 3600)

/-- `check_availability`: local events are fetched with `get_events_in_range`
over the window `[start - 2h, end + 2h]`, filtered by the half-open overlap
test; remote events (when a user is supplied and `remoteList` succeeds) are
projected and filtered by the same test; on conflicts, candidate start hours
08:00..19:00 are probed and the first three free ones suggested. -/
def checkAvailability (tenantId : Nat) (eventDate eventTime : Int)
    (durationMinutes : Int) (userIdForGoogle : Option Nat)
    (events : List EventRec)
    (remoteList : Except GoogleCalendarError (List GcalService.GEvent)) :
    AvailabilityResult :=
  let startDt := eventDate + eventTime
  let endDt := startDt + durationMinutes * 60
  let localEvents := CalendarRepo.getEventsInRange tenantId
    (startDt - 2 * 3600) (endDt + 2 * 3600) events
  let localConflicts := localEvents.filter fun r =>
    decide (r.startDatetime < endDt) && decide (eventEndOrHour r > startDt)
  let conflicts :=
    if userIdForGoogle.isSome then
      match remoteList with
      | .ok gs =>
        localConflicts ++ (gs.filter fun g =>
            decide (g.startDatetime < endDt)
              && decide (g.endDatetime.getD (g.startDatetime + 3600) > startDt)).map
          (fun g =>
            { googleEventProjection tenantId g with
                endDatetime := some (g.endDatetime.getD (g.startDatetime + 3600)) })
      | .error _ => localConflicts
    else localConflicts
  let suggestedTimes :=
    if conflicts.isEmpty then []
    else
      (((List.range' 8 12).map fun h => (h : Int) * 3600).filter fun t =>
        conflicts.all fun c =>
          !(decide (c.startDatetime < eventDate + t + durationMinutes * 60)
            && decide (eventEndOrHour c > eventDate + t))).take 3
  { available := conflicts.isEmpty
    conflicts := conflicts
    suggestedTimes := suggestedTimes }

/-- `handle_google_oauth_callback`: look up a live state (unused, unexpired);
exchange the code (`exchangeOutcome` is the outcome the token exchange would
produce — a failure returns the provider message); `get_user_info` failures
are swallowed and its result is not used for control flow; resolve the user
by phone; upsert credentials with expiry `now + expires_in (default 3600)`
and refresh token `.get("refresh_token", "")`; mark the state used; return
the stored redirect or the configured success URL. Returns ((success,
target), states, credentials). -/
def handleGoogleOauthCallback (_code state : String) (now : Int)
    (states : List OAuthStateRec) (users : List UserRec)
    (creds : List GoogleCredsRec)
    (exchangeOutcome : Except GoogleCalendarError GcalService.ExchangeTokenData)
    (successUrl : String) :
    (Bool × String) × List OAuthStateRec × List GoogleCredsRec :=
  match CalendarRepo.getOauthState state now states with
  | none => ((false, "Invalid or expired OAuth state"), states, creds)
  | some stateRecord =>
    match exchangeOutcome with
    | .error e => ((false, e.message), states, creds)
    | .ok tokenData =>
      match CalendarRepo.getUserByPhone stateRecord.userPhone users with
      | none => ((false, "User not found"), states, creds)
      | some user =>
        let expiresAt := now + tokenData.expiresIn.getD 3600
        let creds2 := CalendarRepo.upsertGoogleCredentials user.id user.tenantId
          tokenData.accessToken (tokenData.refreshToken.getD "") expiresAt
          "primary" none creds
        let states2 := CalendarRepo.markOauthStateUsed state now states
        ((true, pyStrOr stateRecord.redirectUrl successUrl), states2, creds2)

end CalendarService

/-! ## Helper lemmas -/

theorem likeChars_empty (s : List Char) : likeChars [] s = s.isEmpty := by
  simp [likeChars]

theorem likeChars_percent (ps s : List Char) :
    likeChars ('%' :: ps) s = s.tails.any (fun t => likeChars ps t) := by
  simp [likeChars]

theorem likeChars_cons (p : Char) (ps : List Char) (c : Char) (s2 : List Char)
    (h : p ≠ '%') :
    likeChars (p :: ps) (c :: s2) = ((p == '_' || p == c) && likeChars ps s2) := by
  simp [likeChars, h]

/-- A pattern that is a literal leading block followed by `%` accepts the
string. -/
theorem like_append_percent_of_startsWith :
    ∀ (kw t : List Char), startsWithChars kw t = true →
      likeChars (kw ++ ['%']) t = true := by
  intro kw
  induction kw with
  | nil =>
    intro t _
    show likeChars ['%'] t = true
    rw [likeChars_percent, List.any_eq_true]
    exact ⟨[], (List.mem_tails _ _).mpr List.nil_suffix, by rw [likeChars_empty]; rfl⟩
  | cons c kw' ih =>
    intro t hsw
    cases t with
    | nil => simp [startsWithChars] at hsw
    | cons c' t2 =>
      simp only [startsWithChars, Bool.and_eq_true, beq_iff_eq] at hsw
      obtain ⟨hc, hsw2⟩ := hsw
      subst hc
      by_cases hpc : c = '%'
      · subst hpc
        show likeChars ('%' :: (kw' ++ ['%'])) ('%' :: t2) = true
        rw [likeChars_percent, List.any_eq_true]
        exact ⟨t2, (List.mem_tails _ _).mpr ⟨['%'], rfl⟩, ih t2 hsw2⟩
      · show likeChars (c :: (kw' ++ ['%'])) (c :: t2) = true
        rw [likeChars_cons _ _ _ _ hpc, Bool.and_eq_true, Bool.or_eq_true]
        exact ⟨Or.inr (beq_self_eq_true c), ih t2 hsw2⟩

/-- Substring containment implies a `LIKE '%kw%'` match (the wildcards in the
pattern can only accept more strings than the literal reading). -/
theorem like_percent_wrap_of_contains :
    ∀ (t kw : List Char), containsChars kw t = true →
      likeChars ('%' :: (kw ++ ['%'])) t = true := by
  intro t
  induction t with
  | nil =>
    intro kw h
    simp only [containsChars] at h
    rw [likeChars_percent, List.any_eq_true]
    exact ⟨[], (List.mem_tails _ _).mpr List.nil_suffix,
      like_append_percent_of_startsWith kw [] h⟩
  | cons c cs ih =>
    intro kw h
    simp only [containsChars, Bool.or_eq_true] at h
    rw [likeChars_percent, List.any_eq_true]
    rcases h with h | h
    · exact ⟨c :: cs, (List.mem_tails _ _).mpr (List.suffix_refl _),
        like_append_percent_of_startsWith _ _ h⟩
    · have hcs := ih kw h
      rw [likeChars_percent, List.any_eq_true] at hcs
      obtain ⟨u, hu, hlike⟩ := hcs
      exact ⟨u, (List.mem_tails _ _).mpr
        (((List.mem_tails _ _).mp hu).trans (List.suffix_cons c cs)), hlike⟩

/-- The empty keyword is contained in every string. -/
theorem containsChars_nil_left : ∀ (t : List Char), containsChars [] t = true := by
  intro t
  cases t with
  | nil => rfl
  | cons c cs => simp [containsChars, startsWithChars]

/-- Lowercasing a whitespace character is the identity. -/
theorem toLower_of_isWhitespace (c : Char) (h : c.isWhitespace = true) :
    c.toLower = c := by
  unfold Char.isWhitespace at h
  simp only [Bool.or_eq_true, beq_iff_eq, decide_eq_true_eq] at h
  rcases h with ((h | h) | h) | h <;> subst h <;> decide

/-- Splitting an all-whitespace character list yields no words. -/
theorem splitWsAux_eq_nil_of_ws :
    ∀ (l : List Char), (∀ c ∈ l, c.isWhitespace = true) → splitWsAux l [] = [] := by
  intro l
  induction l with
  | nil => intro _; rfl
  | cons c cs ih =>
    intro h
    have hc : c.isWhitespace = true := h c (List.mem_cons_self c cs)
    have hstep : splitWsAux (c :: cs) [] = splitWsAux cs [] := by
      rw [splitWsAux, hc]
      rfl
    rw [hstep]
    exact ih fun d hd => h d (List.mem_cons_of_mem c hd)

/-- An all-whitespace title produces the empty duplicate keyword. -/
theorem keywordOf_eq_nil_of_ws (title : String)
    (h : ∀ c ∈ title.data, c.isWhitespace = true) : keywordOf title = [] := by
  unfold keywordOf splitWs
  rw [splitWsAux_eq_nil_of_ws]
  · rfl
  · intro c hc
    simp only [toLowerChars, List.mem_map] at hc
    obtain ⟨d, hd, hdc⟩ := hc
    rw [← hdc, toLower_of_isWhitespace d (h d hd)]
    exact h d hd

/-- Mapping a function that fixes every member of a list is the identity. -/
theorem map_id_of_mem {α : Type} (f : α → α) :
    ∀ (l : List α), (∀ a ∈ l, f a = a) → l.map f = l := by
  intro l
  induction l with
  | nil => intro _; rfl
  | cons a l ih =>
    intro h
    simp only [List.map_cons, h a (List.mem_cons_self a l),
      ih fun b hb => h b (List.mem_cons_of_mem a hb)]

/-- The two halves of a filter partition the length. -/
theorem length_filter_add_length_filter_not {α : Type} (p : α → Bool) :
    ∀ (l : List α),
      (l.filter p).length + (l.filter (fun a => !(p a))).length = l.length := by
  intro l
  induction l with
  | nil => rfl
  | cons a l ih =>
    by_cases h : p a = true
    · rw [List.filter_cons_of_pos h, List.filter_cons_of_neg (by simp [h])]
      simp only [List.length_cons]
      omega
    · rw [List.filter_cons_of_neg (by simp [h]), List.filter_cons_of_pos (by simp [h])]
      simp only [List.length_cons]
      omega

/-- In a list whose `f`-keys (where present) are pairwise distinct, filtering
by the key of a member isolates exactly that member. -/
theorem filter_key_eq_singleton {α β : Type} [DecidableEq β] (f : α → Option β) :
    ∀ (l : List α) (a : α) (x : β), (l.filterMap f).Nodup → a ∈ l → f a = some x →
      l.filter (fun b => f b == some x) = [a] := by
  intro l
  induction l with
  | nil => intro a x _ ha _; exact absurd ha (List.not_mem_nil a)
  | cons h t ih =>
    intro a x hnodup ha hfa
    by_cases hfh : f h = some x
    · have hnd : x ∉ t.filterMap f ∧ (t.filterMap f).Nodup := by
        have : (h :: t).filterMap f = x :: t.filterMap f := by
          rw [List.filterMap_cons, hfh]
        rw [this] at hnodup
        exact ⟨(List.nodup_cons.mp hnodup).1, (List.nodup_cons.mp hnodup).2⟩
      have htnil : t.filter (fun b => f b == some x) = [] := by
        rw [List.filter_eq_nil_iff]
        intro b hb
        intro hbeq
        rw [beq_iff_eq] at hbeq
        exact hnd.1 (List.mem_filterMap.mpr ⟨b, hb, hbeq⟩)
      have hah : a = h := by
        rcases List.mem_cons.mp ha with h1 | h1
        · exact h1
        · exfalso
          have : a ∈ t.filter (fun b => f b == some x) :=
            List.mem_filter.mpr ⟨h1, by simp [hfa]⟩
          rw [htnil] at this
          exact List.not_mem_nil a this
      subst hah
      rw [List.filter_cons, if_pos (by simp [hfh]), htnil]
    · have hat : a ∈ t := by
        rcases List.mem_cons.mp ha with h1 | h1
        · exact absurd (h1 ▸ hfa) hfh
        · exact h1
      have hnd : (t.filterMap f).Nodup := by
        rw [List.filterMap_cons] at hnodup
        cases hfh2 : f h with
        | none => rwa [hfh2] at hnodup
        | some y =>
          rw [hfh2] at hnodup
          exact (List.nodup_cons.mp hnodup).2
      have hph : ¬((fun b => f b == some x) h = true) := by
        simp only [beq_iff_eq]
        exact hfh
      rw [List.filter_cons, if_neg hph]
      exact ih a x hnd hat hfa

/-- `sortByStart` is a permutation of its input. -/
theorem sortByStart_perm (l : List EventRec) : List.Perm (sortByStart l) l :=
  List.perm_insertionSort _ l

/-- Membership is preserved by `sortByStart`. -/
theorem mem_sortByStart (a : EventRec) (l : List EventRec) :
    a ∈ sortByStart l ↔ a ∈ l :=
  (sortByStart_perm l).mem_iff

/-- `sortByStart` sorts by ascending start time. -/
theorem sortByStart_sorted (l : List EventRec) :
    List.Sorted (fun a b => a.startDatetime ≤ b.startDatetime) (sortByStart l) := by
  haveI : IsTotal EventRec (fun a b => a.startDatetime ≤ b.startDatetime) :=
    ⟨fun a b => le_total _ _⟩
  haveI : IsTrans EventRec (fun a b => a.startDatetime ≤ b.startDatetime) :=
    ⟨fun _ _ _ hab hbc => le_trans hab hbc⟩
  exact List.sorted_insertionSort _ l

/-- When `find_potential_duplicate` hits, `create_event` takes the duplicate
branch: nothing is persisted and the warning carries the found row. -/
theorem createEvent_blocks_of_findDup (tenantId : Nat) (data : EventCreate)
    (createdBy : Option Nat) (syncToGoogle : Bool) (userIdForSync : Option Nat)
    (events : List EventRec) (freshId : Nat) (now : Int)
    (remoteCreate : Except GoogleCalendarError CalendarService.GCreatedEvent)
    (d : EventRec)
    (hd : CalendarRepo.findPotentialDuplicate tenantId
        (data.eventDate + data.startTime.getD (9 * 3600)) (keywordOf data.title)
        30 events = some d) :
    CalendarService.createEvent tenantId data createdBy syncToGoogle
        userIdForSync events freshId now remoteCreate
      = (events,
         { event := none,
           duplicateWarning := some { hasDuplicate := true, existingEvent := some d },
           created := false }) := by
  unfold CalendarService.createEvent CalendarService.checkForDuplicate
  simp only [hd]
  rfl

/-- A `LOWER` applied to a `%`-wrapped pattern lowers only the keyword. -/
theorem toLowerChars_pattern (kw : List Char) :
    toLowerChars ('%' :: kw ++ ['%']) = '%' :: (toLowerChars kw ++ ['%']) := by
  simp only [toLowerChars, List.map_cons, List.map_append, List.map_nil,
    List.cons_append, show Char.toLower '%' = '%' from rfl]

/-- The predicate `find_potential_duplicate` evaluates on a row. -/
theorem findPotentialDuplicate_pred_true (tenantId : Nat) (startDatetime : Int)
    (kw : List Char) (e : EventRec) (hten : e.tenantId = tenantId)
    (hnear : (e.startDatetime - startDatetime).natAbs < 30 * 60)
    (hlike : likeChars (toLowerChars ('%' :: kw ++ ['%']))
      (toLowerChars e.title.data) = true) :
    (e.tenantId == tenantId
      && decide ((e.startDatetime - startDatetime).natAbs < 30 * 60)
      && likeChars (toLowerChars ('%' :: kw ++ ['%']))
          (toLowerChars e.title.data)) = true := by
  simp only [Bool.and_eq_true, beq_iff_eq, decide_eq_true_eq]
  exact ⟨⟨hten, hnear⟩, hlike⟩

/-- `update_event` over a table that is `events ++ [r]` where `r`'s id is
fresh touches only `r`. -/
theorem updateEvent_append_fresh (events : List EventRec) (r : EventRec)
    (tenantId : Nat) (title description location : Option String)
    (startDatetime endDatetime : Option Int) (recurrenceRule : Option String)
    (syncStatus : Option SyncStatus) (googleEventId : Option String)
    (lastSyncedAt : Option Int)
    (hfresh : ∀ e ∈ events, e.id ≠ r.id) (hr : r.tenantId = tenantId) :
    (CalendarRepo.updateEvent (events ++ [r]) tenantId r.id title description
        location startDatetime endDatetime recurrenceRule syncStatus
        googleEventId lastSyncedAt).1
      = events ++ [CalendarRepo.applyEventUpdate title description location
          startDatetime endDatetime recurrenceRule syncStatus googleEventId
          lastSyncedAt r] := by
  unfold CalendarRepo.updateEvent
  simp only [List.map_append, List.map_cons, List.map_nil]
  have h1 : events.map (fun e =>
      if e.tenantId == tenantId && e.id == r.id then
        CalendarRepo.applyEventUpdate title description location startDatetime
          endDatetime recurrenceRule syncStatus googleEventId lastSyncedAt e
      else e) = events := by
    apply map_id_of_mem
    intro e he
    have : (e.id == r.id) = false := by
      simp only [beq_eq_false_iff_ne, ne_eq]
      exact hfresh e he
    simp [this]
  have h2 : (r.tenantId == tenantId && r.id == r.id) = true := by
    simp [hr]
  rw [h1, if_pos h2]

/-! ## Claim theorems -/

/-- C1: for every create-event request for a tenant, if an existing event of
that tenant starts within 30 minutes (strictly) of the proposed start and its
title contains the first word of the proposed title (case-insensitively),
then no new event row is persisted, the result has `created = false` and no
event, and the duplicate warning references an existing event of the tenant
satisfying the duplicate criterion. -/
theorem createEvent_duplicate_gate (tenantId : Nat) (data : EventCreate)
    (createdBy : Option Nat) (syncToGoogle : Bool) (userIdForSync : Option Nat)
    (events : List EventRec) (freshId : Nat) (now : Int)
    (remoteCreate : Except GoogleCalendarError CalendarService.GCreatedEvent)
    (h : ∃ e ∈ events, e.tenantId = tenantId ∧
      (e.startDatetime - (data.eventDate + data.startTime.getD (9 * 3600))).natAbs
          < 30 * 60 ∧
      containsChars (toLowerChars (keywordOf data.title))
          (toLowerChars e.title.data) = true) :
    (CalendarService.createEvent tenantId data createdBy syncToGoogle
        userIdForSync events freshId now remoteCreate).1 = events ∧
    (CalendarService.createEvent tenantId data createdBy syncToGoogle
        userIdForSync events freshId now remoteCreate).2.created = false ∧
    (CalendarService.createEvent tenantId data createdBy syncToGoogle
        userIdForSync events freshId now remoteCreate).2.event = none ∧
    ∃ d ∈ events, d.tenantId = tenantId ∧
      (d.startDatetime - (data.eventDate + data.startTime.getD (9 * 3600))).natAbs
          < 30 * 60 ∧
      likeChars (toLowerChars ('%' :: keywordOf data.title ++ ['%']))
          (toLowerChars d.title.data) = true ∧
      (CalendarService.createEvent tenantId data createdBy syncToGoogle
          userIdForSync events freshId now remoteCreate).2.duplicateWarning
        = some { hasDuplicate := true, existingEvent := some d } := by
  obtain ⟨e, he, hten, hnear, hcont⟩ := h
  have hlike : likeChars (toLowerChars ('%' :: keywordOf data.title ++ ['%']))
      (toLowerChars e.title.data) = true := by
    rw [toLowerChars_pattern]
    exact like_percent_wrap_of_contains _ _ hcont
  have hsome : (CalendarRepo.findPotentialDuplicate tenantId
      (data.eventDate + data.startTime.getD (9 * 3600)) (keywordOf data.title)
      30 events).isSome = true := by
    unfold CalendarRepo.findPotentialDuplicate
    rw [List.find?_isSome]
    exact ⟨e, he, findPotentialDuplicate_pred_true _ _ _ _ hten hnear hlike⟩
  obtain ⟨d, hd⟩ := Option.isSome_iff_exists.mp hsome
  have hd' : List.find? (fun r => r.tenantId == tenantId
      && decide ((r.startDatetime -
          (data.eventDate + data.startTime.getD (9 * 3600))).natAbs < 30 * 60)
      && likeChars (toLowerChars ('%' :: keywordOf data.title ++ ['%']))
          (toLowerChars r.title.data)) events = some d := hd
  have hdmem := List.mem_of_find?_eq_some hd'
  have hdpred := List.find?_some hd'
  simp only [Bool.and_eq_true, beq_iff_eq, decide_eq_true_eq] at hdpred
  have hblock := createEvent_blocks_of_findDup tenantId data createdBy
    syncToGoogle userIdForSync events freshId now remoteCreate d hd
  rw [hblock]
  exact ⟨rfl, rfl, rfl, d, hdmem, hdpred.1.1, hdpred.1.2, hdpred.2, rfl⟩

/-- Witness for C1: the spec scenario — creating "Dentista" at 10:05 when
"Dentista turno" exists at 10:00 is blocked. -/
theorem createEvent_duplicate_gate_witness :
    (CalendarService.createEvent 1
        { title := "Dentista", eventDate := 0, startTime := some 36300 } none
        true (some 3)
        [{ id := 7, tenantId := 1, title := "Dentista turno",
           startDatetime := 36000 }] 99 0
        (.error { message := "x" })).2.created = false :=
  (createEvent_duplicate_gate 1
    { title := "Dentista", eventDate := 0, startTime := some 36300 } none
    true (some 3)
    [{ id := 7, tenantId := 1, title := "Dentista turno",
       startDatetime := 36000 }] 99 0
    (.error { message := "x" }) (by decide)).2.1

/-- C3: with propagation requested and a sync user supplied, if the remote
create fails with a `GoogleCalendarError`, the local row is still created
(appended to the table), the call returns it with `created = true` and
`sync_status = pending_sync`, and no error reaches the caller (the embedded
operation is a total function returning this value). -/
theorem createEvent_remote_failure_pending_sync (tenantId : Nat)
    (data : EventCreate) (createdBy : Option Nat) (u : Nat)
    (err : GoogleCalendarError) (events : List EventRec) (freshId : Nat)
    (now : Int)
    (hnodup : (CalendarService.checkForDuplicate tenantId
        (data.eventDate + data.startTime.getD (9 * 3600)) data.title
        events).hasDuplicate = false)
    (hkey : CalendarRepo.findIdemCollision tenantId data.idempotencyKey events
        = none)
    (hfresh : ∀ e ∈ events, e.id ≠ freshId) :
    ∃ r : EventRec,
      CalendarService.createEvent tenantId data createdBy true (some u) events
          freshId now (.error err)
        = (events ++ [r],
           { event := some r, duplicateWarning := none, created := true }) ∧
      r.syncStatus = .pendingSync ∧ r.title = data.title ∧
      r.startDatetime = data.eventDate + data.startTime.getD (9 * 3600) ∧
      r.endDatetime = some (data.eventDate + data.startTime.getD (9 * 3600)
        + data.durationMinutes * 60) ∧
      r.source = .app := by
  cases hfind : CalendarRepo.findPotentialDuplicate tenantId
      (data.eventDate + data.startTime.getD (9 * 3600)) (keywordOf data.title)
      30 events with
  | some d =>
    exfalso
    unfold CalendarService.checkForDuplicate at hnodup
    simp only [hfind] at hnodup
    simp at hnodup
  | none =>
    let r0 : EventRec := { id := freshId, tenantId := tenantId, title := data.title, description := data.description, location := data.location, startDatetime := data.eventDate + data.startTime.getD (9 * 3600), endDatetime := some (data.eventDate + data.startTime.getD (9 * 3600) + data.durationMinutes * 60), timezone := data.timezone, recurrenceRule := data.recurrenceRule, createdBy := createdBy, idempotencyKey := data.idempotencyKey, googleEventId := none, googleCalendarId := none, syncStatus := .pendingSync, source := .app, lastSyncedAt := none }
    refine ⟨r0, ?_, rfl, rfl, rfl, rfl, rfl⟩
    unfold CalendarService.createEvent CalendarService.checkForDuplicate
      CalendarRepo.createEvent
    simp only [hfind, hkey, Option.isSome_some, Bool.and_true, Bool.and_self,
      if_true, if_false, ite_true, ite_false]
    rw [updateEvent_append_fresh _ _ _ _ _ _ _ _ _ _ _ _ hfresh rfl]
    rfl

/-- Witness for C3: a concrete create whose remote propagation fails still
returns a `pending_sync` event. -/
theorem createEvent_remote_failure_pending_sync_witness :
    ∃ r : EventRec,
      CalendarService.createEvent 1
          { title := "Pediatra", eventDate := 0, startTime := some 36300 }
          none true (some 3)
          [{ id := 7, tenantId := 1, title := "Dentista turno",
             startDatetime := 36000 }] 99 5 (.error { message := "x" })
        = ([{ id := 7, tenantId := 1, title := "Dentista turno",
              startDatetime := 36000 }] ++ [r],
           { event := some r, duplicateWarning := none, created := true }) ∧
      r.syncStatus = .pendingSync ∧ r.title = "Pediatra" ∧
      r.startDatetime = 0 + 36300 ∧ r.endDatetime = some (0 + 36300 + 60 * 60) ∧
      r.source = .app :=
  createEvent_remote_failure_pending_sync 1
    { title := "Pediatra", eventDate := 0, startTime := some 36300 } none 3
    { message := "x" }
    [{ id := 7, tenantId := 1, title := "Dentista turno",
       startDatetime := 36000 }] 99 5 (by decide) (by decide) (by decide)

/-- C6: the source's `mark_oauth_state_used` runs `UPDATE oauth_states SET
used_at = NOW() WHERE state = $1` with no `used_at IS NULL` guard, so
applying it to a state already consumed at time 5 overwrites `used_at` with
the new time 10 instead of leaving it unchanged. -/
theorem markOauthStateUsed_overwrites_used_at :
    CalendarRepo.markOauthStateUsed "s" 10
        [{ state := "s", userPhone := "p", expiresAt := 1000, usedAt := some 5 }]
      = [{ state := "s", userPhone := "p", expiresAt := 1000, usedAt := some 10 }]
    ∧ (some (10 : Int)) ≠ some 5 := by
  constructor
  · rfl
  · decide

/-- C9: `update_event` computes the preserved duration as
`(end - start).seconds // 60`, which drops whole days: moving a 25-hour
event (09:00 day 0 to 10:00 day 1) to day 2 by a date-only patch yields
`end = start + 1 hour` (208800) instead of `start + 25 hours` (295200). -/
theorem updateEvent_duration_drops_whole_days :
    (Except.map (fun p => (p.2.startDatetime, p.2.endDatetime))
        (CalendarService.updateEvent 1 4 { eventDate := some 172800 } none
          [{ id := 4, tenantId := 1, title := "Viaje", startDatetime := 32400,
             endDatetime := some 122400 }] 0 (.ok ())))
      = .ok (205200, some 208800)
    ∧ (208800 : Int) ≠ 205200 + (122400 - 32400) := by
  constructor
  · rfl
  · decide

/-- C10: a whitespace-only title (which passes the `min_length=1`
validation) yields the empty duplicate keyword, whose `LIKE '%%'` pattern
matches every title: the create is blocked with a duplicate warning whenever
any event of the tenant — whatever its title — starts within 30 minutes of
the proposed start. -/
theorem createEvent_whitespace_title_blocks (tenantId : Nat)
    (data : EventCreate) (createdBy : Option Nat) (syncToGoogle : Bool)
    (userIdForSync : Option Nat) (events : List EventRec) (freshId : Nat)
    (now : Int)
    (remoteCreate : Except GoogleCalendarError CalendarService.GCreatedEvent)
    (_hlen : 1 ≤ data.title.length)
    (hws : ∀ c ∈ data.title.data, c.isWhitespace = true)
    (hdup : ∃ e ∈ events, e.tenantId = tenantId ∧
      (e.startDatetime - (data.eventDate + data.startTime.getD (9 * 3600))).natAbs
        < 30 * 60) :
    keywordOf data.title = [] ∧
    (CalendarService.createEvent tenantId data createdBy syncToGoogle
        userIdForSync events freshId now remoteCreate).1 = events ∧
    (CalendarService.createEvent tenantId data createdBy syncToGoogle
        userIdForSync events freshId now remoteCreate).2.created = false ∧
    (CalendarService.createEvent tenantId data createdBy syncToGoogle
        userIdForSync events freshId now remoteCreate).2.event = none ∧
    ∃ w, (CalendarService.createEvent tenantId data createdBy syncToGoogle
        userIdForSync events freshId now remoteCreate).2.duplicateWarning
          = some w ∧ w.hasDuplicate = true := by
  have hkw : keywordOf data.title = [] := keywordOf_eq_nil_of_ws data.title hws
  obtain ⟨e, he, hten, hnear⟩ := hdup
  have hlike : likeChars (toLowerChars ('%' :: keywordOf data.title ++ ['%']))
      (toLowerChars e.title.data) = true := by
    rw [hkw, toLowerChars_pattern]
    exact like_percent_wrap_of_contains _ _
      (containsChars_nil_left (toLowerChars e.title.data))
  have hsome : (CalendarRepo.findPotentialDuplicate tenantId
      (data.eventDate + data.startTime.getD (9 * 3600)) (keywordOf data.title)
      30 events).isSome = true := by
    unfold CalendarRepo.findPotentialDuplicate
    rw [List.find?_isSome]
    exact ⟨e, he, findPotentialDuplicate_pred_true _ _ _ _ hten hnear hlike⟩
  obtain ⟨d, hd⟩ := Option.isSome_iff_exists.mp hsome
  have hblock := createEvent_blocks_of_findDup tenantId data createdBy
    syncToGoogle userIdForSync events freshId now remoteCreate d hd
  rw [hblock]
  exact ⟨hkw, rfl, rfl, rfl, { hasDuplicate := true, existingEvent := some d },
    rfl, rfl⟩

/-- Witness for C10: a `" "` title is blocked by an unrelated `"zzz"` event
starting 5 minutes later. -/
theorem createEvent_whitespace_title_blocks_witness :
    keywordOf " " = [] ∧
    (CalendarService.createEvent 1 { title := " ", eventDate := 0, startTime := some 36000 } none false none [{ id := 7, tenantId := 1, title := "zzz", startDatetime := 36300 }] 99 0 (.error { message := "x" })).2.created = false :=
  ⟨(createEvent_whitespace_title_blocks 1 { title := " ", eventDate := 0, startTime := some 36000 } none false none [{ id := 7, tenantId := 1, title := "zzz", startDatetime := 36300 }] 99 0 (.error { message := "x" }) (by decide) (by decide) (by decide)).1,
   (createEvent_whitespace_title_blocks 1 { title := " ", eventDate := 0, startTime := some 36000 } none false none [{ id := 7, tenantId := 1, title := "zzz", startDatetime := 36300 }] 99 0 (.error { message := "x" }) (by decide) (by decide) (by decide)).2.2.1⟩

/-- After `update_google_tokens`, some row for the user carries the new
access token and expiry, and retains the stored refresh token when the
response omitted one. -/
theorem updateGoogleTokens_persists (userId : Nat) (access : String)
    (expiresAt : Int) (rt : Option String) (creds : List GoogleCredsRec)
    (c : GoogleCredsRec) (hc : c ∈ creds) (hu : c.userId = userId) :
    ∃ c2 ∈ CalendarRepo.updateGoogleTokens userId access expiresAt rt creds,
      c2.userId = userId ∧ c2.accessToken = access ∧
      c2.tokenExpiresAt = expiresAt ∧
      (rt = none → c2.refreshToken = c.refreshToken) := by
  unfold CalendarRepo.updateGoogleTokens
  by_cases h : strTruthy rt = true
  · rw [if_pos h]
    refine ⟨{ c with accessToken := access, refreshToken := rt.getD c.refreshToken, tokenExpiresAt := expiresAt }, ?_, hu, rfl, rfl, ?_⟩
    · exact List.mem_map.mpr ⟨c, hc, by rw [if_pos (by simp [hu])]⟩
    · intro hnone
      rw [hnone] at h
      exact absurd h (by simp [strTruthy])
  · rw [if_neg h]
    refine ⟨{ c with accessToken := access, tokenExpiresAt := expiresAt }, ?_, hu, rfl, rfl, fun _ => rfl⟩
    exact List.mem_map.mpr ⟨c, hc, by rw [if_pos (by simp [hu])]⟩

/-- C7: credentials resolution refreshes exactly when the stored expiry is
within the 5-minute buffer of now: in that case an `ok` refresh outcome
yields exactly one refresh call, the new token set persisted to the store
(retaining the prior refresh token when the response omits one) and
credentials carrying the new access token; a failing refresh yields `none`
without raising; outside the buffer no refresh call is made and the stored
token is returned. -/
theorem getValidCredentials_refresh_policy (userId : Nat) (now : Int)
    (creds : List GoogleCredsRec)
    (outcome : Except GoogleCalendarError GcalService.RefreshTokenData)
    (c : GoogleCredsRec)
    (hc : CalendarRepo.getGoogleCredentialsByUser userId creds = some c) :
    (c.tokenExpiresAt ≤ now + 5 * 60 →
      (∀ td, outcome = .ok td →
        GcalService.getValidCredentials userId now creds outcome
          = (some { token := td.accessToken,
                    refreshToken := td.refreshToken.getD c.refreshToken,
                    scopes := c.scopes },
             CalendarRepo.updateGoogleTokens userId td.accessToken
               (now + td.expiresIn) td.refreshToken creds, 1) ∧
        ∃ c2 ∈ (GcalService.getValidCredentials userId now creds outcome).2.1,
          c2.userId = userId ∧ c2.accessToken = td.accessToken ∧
          c2.tokenExpiresAt = now + td.expiresIn ∧
          (td.refreshToken = none → c2.refreshToken = c.refreshToken)) ∧
      (∀ err, outcome = .error err →
        GcalService.getValidCredentials userId now creds outcome
          = (none, creds, 1))) ∧
    (¬(c.tokenExpiresAt ≤ now + 5 * 60) →
      GcalService.getValidCredentials userId now creds outcome
        = (some { token := c.accessToken, refreshToken := c.refreshToken,
                  scopes := c.scopes }, creds, 0)) := by
  have hcmem : c ∈ creds := by
    unfold CalendarRepo.getGoogleCredentialsByUser at hc
    exact List.mem_of_find?_eq_some hc
  have hcuser : c.userId = userId := by
    unfold CalendarRepo.getGoogleCredentialsByUser at hc
    have := List.find?_some hc
    simpa using this
  refine ⟨fun hexp => ⟨fun td htd => ?_, fun err herr => ?_⟩, fun hnot => ?_⟩
  · subst htd
    have heq : GcalService.getValidCredentials userId now creds (.ok td)
        = (some { token := td.accessToken,
                  refreshToken := td.refreshToken.getD c.refreshToken,
                  scopes := c.scopes },
           CalendarRepo.updateGoogleTokens userId td.accessToken
             (now + td.expiresIn) td.refreshToken creds, 1) := by
      unfold GcalService.getValidCredentials
      simp only [hc]
      rw [if_pos hexp]
    refine ⟨heq, ?_⟩
    rw [heq]
    exact updateGoogleTokens_persists userId td.accessToken (now + td.expiresIn)
      td.refreshToken creds c hcmem hcuser
  · subst herr
    unfold GcalService.getValidCredentials
    simp only [hc]
    rw [if_pos hexp]
  · unfold GcalService.getValidCredentials
    simp only [hc]
    rw [if_neg hnot]

/-- Witness for C7: a credential expiring in 2 minutes is refreshed once, the
store is rewritten with the new access token and the prior refresh token is
retained. -/
theorem getValidCredentials_refresh_policy_witness :
    GcalService.getValidCredentials 1 0 [{ userId := 1, tenantId := 1, accessToken := "a", refreshToken := "r", tokenExpiresAt := 120, scopes := [] }] (.ok { accessToken := "a2", refreshToken := none, expiresIn := 3600 })
      = (some { token := "a2", refreshToken := "r", scopes := [] },
         [{ userId := 1, tenantId := 1, accessToken := "a2", refreshToken := "r", tokenExpiresAt := 3600, scopes := [] }], 1) :=
  (((getValidCredentials_refresh_policy 1 0 [{ userId := 1, tenantId := 1, accessToken := "a", refreshToken := "r", tokenExpiresAt := 120, scopes := [] }] (.ok { accessToken := "a2", refreshToken := none, expiresIn := 3600 }) { userId := 1, tenantId := 1, accessToken := "a", refreshToken := "r", tokenExpiresAt := 120, scopes := [] } (by decide)).1 (by decide)).1 { accessToken := "a2", refreshToken := none, expiresIn := 3600 } rfl).1.trans (by decide)

/-- C8 counterexample: deleting an event that carries a remote event id but
with no sync user supplied performs zero remote delete attempts, yet the
local row is removed — the claim's unconditional "a remote delete is
attempted" fails. -/
theorem deleteEvent_no_user_skips_remote :
    CalendarService.deleteEvent 1 5 none [{ id := 5, tenantId := 1, title := "X", startDatetime := 0, googleEventId := some "g5" }] (.ok true)
      = .ok ([], true, 0)
    ∧ strTruthy (some "g5") = true := by
  exact ⟨by decide, by decide⟩

/-- C8 (amended): for a delete of an existing event with a truthy remote
event id and a sync user supplied, exactly one remote delete is attempted —
whatever its outcome — and the local row is removed unconditionally with the
call returning `true`; deleting a non-existent event fails with the
`Event not found` (404) error. -/
theorem deleteEvent_remote_then_local (tenantId eventId u : Nat)
    (events : List EventRec)
    (remoteDelete : Except GoogleCalendarError Bool) (existing : EventRec)
    (hfind : CalendarRepo.getEventById tenantId eventId events = some existing)
    (hgid : strTruthy existing.googleEventId = true)
    (huniq : (events.filter fun r => r.tenantId == tenantId && r.id == eventId).length = 1) :
    CalendarService.deleteEvent tenantId eventId (some u) events remoteDelete
      = .ok (events.filter fun r => !(r.tenantId == tenantId && r.id == eventId), true, 1)
    ∧ ∀ events2 : List EventRec,
        CalendarRepo.getEventById tenantId eventId events2 = none →
        CalendarService.deleteEvent tenantId eventId (some u) events2 remoteDelete
          = .error "Event not found" := by
  constructor
  · unfold CalendarService.deleteEvent CalendarRepo.deleteEvent
    rw [hfind]
    have hflag : (events.length ==
        (events.filter fun r => !(r.tenantId == tenantId && r.id == eventId)).length + 1)
        = true := by
      rw [beq_iff_eq]
      have := length_filter_add_length_filter_not
        (fun r => r.tenantId == tenantId && r.id == eventId) events
      omega
    simp only [hgid, Option.isSome_some, Bool.and_true, Bool.and_self, if_true,
      ite_true, hflag]
  · intro events2 h2
    unfold CalendarService.deleteEvent
    rw [h2]

/-- Witness for C8: deleting a mirrored event with a sync user while the
remote delete fails still removes the local row, returns `true`, and made
exactly one remote attempt. -/
theorem deleteEvent_remote_then_local_witness :
    CalendarService.deleteEvent 1 5 (some 2) [{ id := 5, tenantId := 1, title := "X", startDatetime := 0, googleEventId := some "g5" }] (.error { message := "f" })
      = .ok ([], true, 1) :=
  ((deleteEvent_remote_then_local 1 5 2 [{ id := 5, tenantId := 1, title := "X", startDatetime := 0, googleEventId := some "g5" }] (.error { message := "f" }) { id := 5, tenantId := 1, title := "X", startDatetime := 0, googleEventId := some "g5" } (by decide) (by decide) (by decide)).1).trans (by decide)

/-- C5: once a callback has successfully consumed a state, every row carrying
that state has `used_at` set, and any later callback with the same state —
at any time, with any environment — fails with the invalid/expired-state
outcome without touching the credential store; likewise a callback against a
store where every row for the state has expired fails the same way. -/
theorem oauth_state_single_use (code state : String) (now : Int)
    (states : List OAuthStateRec) (users : List UserRec)
    (creds : List GoogleCredsRec)
    (exch : Except GoogleCalendarError GcalService.ExchangeTokenData)
    (successUrl : String)
    (hsucc : (CalendarService.handleGoogleOauthCallback code state now states
        users creds exch successUrl).1.1 = true) :
    (∀ r ∈ (CalendarService.handleGoogleOauthCallback code state now states
        users creds exch successUrl).2.1, r.state = state → r.usedAt = some now) ∧
    (∀ (code2 : String) (now2 : Int) (users2 : List UserRec)
        (creds2 : List GoogleCredsRec)
        (exch2 : Except GoogleCalendarError GcalService.ExchangeTokenData)
        (su2 : String),
      CalendarService.handleGoogleOauthCallback code2 state now2
          (CalendarService.handleGoogleOauthCallback code state now states
            users creds exch successUrl).2.1 users2 creds2 exch2 su2
        = ((false, "Invalid or expired OAuth state"),
           (CalendarService.handleGoogleOauthCallback code state now states
             users creds exch successUrl).2.1, creds2)) ∧
    (∀ (code3 : String) (now3 : Int) (states3 : List OAuthStateRec)
        (users3 : List UserRec) (creds3 : List GoogleCredsRec)
        (exch3 : Except GoogleCalendarError GcalService.ExchangeTokenData)
        (su3 : String),
      (∀ r ∈ states3, r.state = state → r.expiresAt ≤ now3) →
      CalendarService.handleGoogleOauthCallback code3 state now3 states3 users3
          creds3 exch3 su3
        = ((false, "Invalid or expired OAuth state"), states3, creds3)) := by
  have hexpired : ∀ (code3 : String) (now3 : Int) (states3 : List OAuthStateRec)
      (users3 : List UserRec) (creds3 : List GoogleCredsRec)
      (exch3 : Except GoogleCalendarError GcalService.ExchangeTokenData)
      (su3 : String),
      (∀ r ∈ states3, r.state = state → r.expiresAt ≤ now3) →
      CalendarService.handleGoogleOauthCallback code3 state now3 states3 users3
          creds3 exch3 su3
        = ((false, "Invalid or expired OAuth state"), states3, creds3) := by
    intro code3 now3 states3 users3 creds3 exch3 su3 hexp
    have hnone : CalendarRepo.getOauthState state now3 states3 = none := by
      unfold CalendarRepo.getOauthState
      rw [List.find?_eq_none]
      intro r hr
      by_cases hs : r.state = state
      · have := hexp r hr hs
        simp only [Bool.and_eq_true, decide_eq_true_eq, not_and]
        intro _
        omega
      · simp only [Bool.and_eq_true, beq_iff_eq, not_and]
        intro h1
        exact absurd h1.1 hs
    unfold CalendarService.handleGoogleOauthCallback
    rw [hnone]
  cases hst : CalendarRepo.getOauthState state now states with
  | none =>
    unfold CalendarService.handleGoogleOauthCallback at hsucc
    rw [hst] at hsucc
    simp at hsucc
  | some sr =>
    cases exch with
    | error e =>
      unfold CalendarService.handleGoogleOauthCallback at hsucc
      rw [hst] at hsucc
      simp at hsucc
    | ok td =>
      cases hu : CalendarRepo.getUserByPhone sr.userPhone users with
      | none =>
        unfold CalendarService.handleGoogleOauthCallback at hsucc
        rw [hst] at hsucc
        simp only [hu] at hsucc
        simp at hsucc
      | some user =>
        have hres : (CalendarService.handleGoogleOauthCallback code state now
            states users creds (.ok td) successUrl).2.1
            = CalendarRepo.markOauthStateUsed state now states := by
          unfold CalendarService.handleGoogleOauthCallback
          rw [hst]
          simp only [hu]
        rw [hres]
        refine ⟨?_, ?_, hexpired⟩
        · intro r hr hrs
          unfold CalendarRepo.markOauthStateUsed at hr
          obtain ⟨r0, _, himg⟩ := List.mem_map.mp hr
          by_cases h0 : (r0.state == state) = true
          · rw [if_pos h0] at himg
            rw [← himg]
          · rw [if_neg h0] at himg
            rw [← himg] at hrs
            exact absurd hrs (by simpa using h0)
        · intro code2 now2 users2 creds2 exch2 su2
          have hnone : CalendarRepo.getOauthState state now2
              (CalendarRepo.markOauthStateUsed state now states) = none := by
            unfold CalendarRepo.getOauthState
            rw [List.find?_eq_none]
            intro r hr
            unfold CalendarRepo.markOauthStateUsed at hr
            obtain ⟨r0, _, himg⟩ := List.mem_map.mp hr
            by_cases h0 : (r0.state == state) = true
            · rw [if_pos h0] at himg
              rw [← himg]
              simp
            · rw [if_neg h0] at himg
              rw [← himg]
              simp only [Bool.and_eq_true, beq_iff_eq, not_and]
              intro h1
              exact absurd h1.1 (by simpa using h0)
          unfold CalendarService.handleGoogleOauthCallback
          rw [hnone]

/-- Witness for C5: a successful callback consumes the state; replaying it
immediately afterwards fails with the invalid/expired outcome and leaves the
replay's credential store untouched. -/
theorem oauth_state_single_use_witness :
    CalendarService.handleGoogleOauthCallback "c2" "s" 60
        (CalendarService.handleGoogleOauthCallback "c" "s" 50 [{ state := "s", userPhone := "+5491112223334", expiresAt := 1000 }] [{ id := 1, tenantId := 1, phone := "+5491112223334" }] [] (.ok { accessToken := "tok", refreshToken := some "ref", expiresIn := some 3600 }) "ok").2.1
        [{ id := 1, tenantId := 1, phone := "+5491112223334" }] [] (.ok { accessToken := "tok2", refreshToken := some "r2", expiresIn := some 3600 }) "ok"
      = ((false, "Invalid or expired OAuth state"),
         (CalendarService.handleGoogleOauthCallback "c" "s" 50 [{ state := "s", userPhone := "+5491112223334", expiresAt := 1000 }] [{ id := 1, tenantId := 1, phone := "+5491112223334" }] [] (.ok { accessToken := "tok", refreshToken := some "ref", expiresIn := some 3600 }) "ok").2.1, []) :=
  (oauth_state_single_use "c" "s" 50 [{ state := "s", userPhone := "+5491112223334", expiresAt := 1000 }] [{ id := 1, tenantId := 1, phone := "+5491112223334" }] [] (.ok { accessToken := "tok", refreshToken := some "ref", expiresIn := some 3600 }) "ok" (by decide)).2.1 "c2" 60 [{ id := 1, tenantId := 1, phone := "+5491112223334" }] [] (.ok { accessToken := "tok2", refreshToken := some "r2", expiresIn := some 3600 }) "ok"

/-- C2 counterexample: a stored event of the tenant running 07:00–11:06:40
overlaps the availability query `[10:00, 11:00)` (its start is before the
query end and its end after the query start), yet `check_availability`
returns no conflicts and `available = true`, because the repository window
only fetches events whose start lies within ±2 hours of the query and this
event starts 3 hours before it. -/
theorem checkAvailability_misses_long_event :
    (CalendarService.checkAvailability 1 0 36000 60 none [{ id := 2, tenantId := 1, title := "Viaje", startDatetime := 25200, endDatetime := some 40000 }] (.error { message := "x" })).conflicts = []
    ∧ (CalendarService.checkAvailability 1 0 36000 60 none [{ id := 2, tenantId := 1, title := "Viaje", startDatetime := 25200, endDatetime := some 40000 }] (.error { message := "x" })).available = true
    ∧ (25200 : Int) < 0 + 36000 + 60 * 60
    ∧ CalendarService.eventEndOrHour { id := 2, tenantId := 1, title := "Viaje", startDatetime := 25200, endDatetime := some 40000 } > 0 + 36000 := by
  exact ⟨by decide, by decide, by decide, by decide⟩

/-- C2 (amended): for every stored event of the tenant whose start lies
inside the widened fetch window `[start - 2h, end + 2h]` (and which is a
real row, i.e. not the zero-UUID projection identity), the event is listed
as a conflict iff `event.start < end ∧ event.end > start`, where a missing
end is read as start + 1 hour; in particular an event ending exactly at the
query start, or starting exactly at the query end, does not conflict. -/
theorem checkAvailability_conflict_iff (tenantId : Nat)
    (eventDate eventTime durationMinutes : Int) (userIdForGoogle : Option Nat)
    (events : List EventRec)
    (remoteList : Except GoogleCalendarError (List GcalService.GEvent))
    (e : EventRec) (he : e ∈ events) (hten : e.tenantId = tenantId)
    (hid : e.id ≠ 0)
    (hlo : eventDate + eventTime - 2 * 3600 ≤ e.startDatetime)
    (hhi : e.startDatetime ≤ eventDate + eventTime + durationMinutes * 60 + 2 * 3600) :
    e ∈ (CalendarService.checkAvailability tenantId eventDate eventTime
        durationMinutes userIdForGoogle events remoteList).conflicts
      ↔ (e.startDatetime < eventDate + eventTime + durationMinutes * 60
         ∧ CalendarService.eventEndOrHour e > eventDate + eventTime) := by
  have hmem_local : e ∈ CalendarRepo.getEventsInRange tenantId
      (eventDate + eventTime - 2 * 3600)
      (eventDate + eventTime + durationMinutes * 60 + 2 * 3600) events := by
    unfold CalendarRepo.getEventsInRange
    rw [mem_sortByStart, List.mem_filter]
    refine ⟨he, ?_⟩
    simp only [Bool.and_eq_true, beq_iff_eq, decide_eq_true_eq]
    exact ⟨⟨hten, hlo⟩, hhi⟩
  have hfilter : e ∈ (CalendarRepo.getEventsInRange tenantId
        (eventDate + eventTime - 2 * 3600)
        (eventDate + eventTime + durationMinutes * 60 + 2 * 3600) events).filter
        (fun r => decide (r.startDatetime
            < eventDate + eventTime + durationMinutes * 60)
          && decide (CalendarService.eventEndOrHour r > eventDate + eventTime))
      ↔ (e.startDatetime < eventDate + eventTime + durationMinutes * 60
         ∧ CalendarService.eventEndOrHour e > eventDate + eventTime) := by
    rw [List.mem_filter]
    simp only [Bool.and_eq_true, decide_eq_true_eq]
    exact ⟨fun h => h.2, fun h => ⟨hmem_local, h⟩⟩
  unfold CalendarService.checkAvailability
  cases userIdForGoogle with
  | none => simpa using hfilter
  | some uid =>
    cases remoteList with
    | error err => simpa using hfilter
    | ok gs =>
      simp only [Option.isSome_some, if_true, ite_true]
      rw [List.mem_append]
      constructor
      · rintro (h | h)
        · exact hfilter.mp h
        · exfalso
          obtain ⟨g, _, hg⟩ := List.mem_map.mp h
          apply hid
          rw [← hg]
          rfl
      · intro hov
        exact Or.inl (hfilter.mpr hov)

/-- Witness for C2: a 10:30–11:30 event conflicts with the 10:00–11:00
query. -/
theorem checkAvailability_conflict_iff_witness :
    ({ id := 3, tenantId := 1, title := "Turno", startDatetime := 37800, endDatetime := some 41400 } : EventRec) ∈
      (CalendarService.checkAvailability 1 0 36000 60 none [{ id := 3, tenantId := 1, title := "Turno", startDatetime := 37800, endDatetime := some 41400 }] (.error { message := "x" })).conflicts
    ↔ (({ id := 3, tenantId := 1, title := "Turno", startDatetime := 37800, endDatetime := some 41400 } : EventRec).startDatetime < 0 + 36000 + 60 * 60
       ∧ CalendarService.eventEndOrHour { id := 3, tenantId := 1, title := "Turno", startDatetime := 37800, endDatetime := some 41400 } > 0 + 36000) :=
  checkAvailability_conflict_iff 1 0 36000 60 none [{ id := 3, tenantId := 1, title := "Turno", startDatetime := 37800, endDatetime := some 41400 }] (.error { message := "x" }) { id := 3, tenantId := 1, title := "Turno", startDatetime := 37800, endDatetime := some 41400 } (by decide) (by decide) (by decide) (by decide) (by decide)

/-- On the remote-inclusion path, the merged event list is the sorted
concatenation of the fetched local rows and the projections of the
unmirrored remote events. -/
theorem listEvents_events_eq (tenantId : Nat) (startDate endDate : Option Int)
    (searchQuery : Option String) (u : Nat) (events : List EventRec)
    (today : Int) (gs : List GcalService.GEvent) :
    (CalendarService.listEvents tenantId startDate endDate searchQuery true
        (some u) events today (.ok gs)).events
      = sortByStart
          (CalendarService.listEventsLocalRecords tenantId startDate endDate
              searchQuery events today
            ++ (gs.filter fun g => !(CalendarService.gidMem g.id
                  (CalendarService.localGoogleIds
                    (CalendarService.listEventsLocalRecords tenantId startDate
                      endDate searchQuery events today)))).map
                (CalendarService.googleEventProjection tenantId)) := by
  unfold CalendarService.listEvents
  rfl

/-- A fetched local row with truthy remote id `X` puts `X` in the mirrored-id
set. -/
theorem mem_localGoogleIds (records : List EventRec) (e : EventRec)
    (he : e ∈ records) (X : String) (hX : e.googleEventId = some X)
    (hXne : X ≠ "") : X ∈ CalendarService.localGoogleIds records := by
  unfold CalendarService.localGoogleIds
  rw [List.mem_filterMap]
  exact ⟨e, he, by rw [hX]; simp [hXne]⟩

/-- C4 counterexample: the tenant has a local event with
`remote_event_id = "X"` (starting on day 2) and the remote listing for day 0
also contains an event with id `"X"`; the merged result's only `"X"` event
is the zero-UUID `source=google` projection, not the local copy — the
de-duplication only consults the locally *fetched* rows, so a mirror outside
the queried range does not suppress the projection. -/
theorem listEvents_mirror_out_of_range_not_deduped :
    ((CalendarService.listEvents 1 (some 0) (some 0) none true (some 1) [{ id := 7, tenantId := 1, title := "Local", startDatetime := 200000, googleEventId := some "X", syncStatus := .synced }] 0 (.ok [{ id := some "X", summary := some "Remote", startDatetime := 36000, endDatetime := some 39600 }])).events.map (fun v => (v.id, v.googleEventId, v.source)))
      = [(0, some "X", EventSource.google)]
    ∧ ({ id := 7, tenantId := 1, title := "Local", startDatetime := 200000, googleEventId := some "X", syncStatus := .synced } : EventRec).googleEventId = some "X"
    ∧ (7 : Nat) ≠ 0 := by
  exact ⟨by decide, rfl, by decide⟩

/-- C4 (amended): on a list-events call with remote inclusion, assuming the
store-level uniqueness invariants (fetched local rows have pairwise-distinct
remote ids; the remote listing has pairwise-distinct ids): (1) if a locally
*fetched* row mirrors remote id `X` (truthy), the merged result contains
exactly one event with remote id `X`, namely that local copy; (2) every
remote event whose (non-empty) id is not in the mirrored-id set appears in
the merged result exactly once, as the non-persisted projection with zero
UUID, `source = google` and `sync_status = synced`; (3) the merged list is
sorted by start time ascending. A local mirror that is not among the fetched
rows (outside the range, or beyond the 50-row page) does not deduplicate. -/
theorem listEvents_merge_amended (tenantId : Nat) (startDate endDate : Option Int)
    (searchQuery : Option String) (u : Nat) (events : List EventRec)
    (today : Int) (gs : List GcalService.GEvent)
    (hnodupLocal : ((CalendarService.listEventsLocalRecords tenantId startDate
        endDate searchQuery events today).filterMap
          (fun e => e.googleEventId)).Nodup)
    (hnodupRemote : (gs.filterMap (fun g => g.id)).Nodup) :
    (∀ e ∈ CalendarService.listEventsLocalRecords tenantId startDate endDate
        searchQuery events today,
      ∀ X : String, e.googleEventId = some X → X ≠ "" →
      ((CalendarService.listEvents tenantId startDate endDate searchQuery true
          (some u) events today (.ok gs)).events.filter
            (fun v => v.googleEventId == some X)) = [e]) ∧
    (∀ g ∈ gs, ∀ X : String, g.id = some X → X ≠ "" →
      X ∉ CalendarService.localGoogleIds (CalendarService.listEventsLocalRecords
        tenantId startDate endDate searchQuery events today) →
      ((CalendarService.listEvents tenantId startDate endDate searchQuery true
          (some u) events today (.ok gs)).events.filter
            (fun v => v.googleEventId == some X))
        = [CalendarService.googleEventProjection tenantId g] ∧
      (CalendarService.googleEventProjection tenantId g).id = 0 ∧
      (CalendarService.googleEventProjection tenantId g).source = .google ∧
      (CalendarService.googleEventProjection tenantId g).syncStatus = .synced) ∧
    List.Sorted (fun a b => a.startDatetime ≤ b.startDatetime)
      (CalendarService.listEvents tenantId startDate endDate searchQuery true
        (some u) events today (.ok gs)).events := by
  have heq := listEvents_events_eq tenantId startDate endDate searchQuery u
    events today gs
  have hfilter_perm : ∀ p : EventRec → Bool,
      ((CalendarService.listEvents tenantId startDate endDate searchQuery true
          (some u) events today (.ok gs)).events.filter p).Perm
        ((CalendarService.listEventsLocalRecords tenantId startDate endDate
            searchQuery events today).filter p
          ++ ((gs.filter fun g => !(CalendarService.gidMem g.id
                (CalendarService.localGoogleIds
                  (CalendarService.listEventsLocalRecords tenantId startDate
                    endDate searchQuery events today)))).map
              (CalendarService.googleEventProjection tenantId)).filter p) := by
    intro p
    rw [heq, ← List.filter_append]
    exact List.Perm.filter p (sortByStart_perm _)
  refine ⟨?_, ?_, ?_⟩
  · intro e he X hX hXne
    have hXin := mem_localGoogleIds _ e he X hX hXne
    have hlocal : (CalendarService.listEventsLocalRecords tenantId startDate
        endDate searchQuery events today).filter
          (fun v => v.googleEventId == some X) = [e] :=
      filter_key_eq_singleton (fun v => v.googleEventId) _ e X hnodupLocal he hX
    have hproj : ((gs.filter fun g => !(CalendarService.gidMem g.id
          (CalendarService.localGoogleIds
            (CalendarService.listEventsLocalRecords tenantId startDate endDate
              searchQuery events today)))).map
          (CalendarService.googleEventProjection tenantId)).filter
            (fun v => v.googleEventId == some X) = [] := by
      rw [List.filter_eq_nil_iff]
      intro v hv hpv
      obtain ⟨g2, hg2, hvg⟩ := List.mem_map.mp hv
      rw [beq_iff_eq] at hpv
      have hg2id : g2.id = some X := by
        rw [← hvg] at hpv
        exact hpv
      have hcond := (List.mem_filter.mp hg2).2
      rw [Bool.not_eq_true', hg2id] at hcond
      unfold CalendarService.gidMem at hcond
      simp at hcond
      exact hcond hXin
    have := hfilter_perm (fun v => v.googleEventId == some X)
    rw [hlocal, hproj, List.append_nil] at this
    exact List.perm_singleton.mp this
  · intro g hg X hgX hXne hXnotin
    have hcond : (!(CalendarService.gidMem g.id
        (CalendarService.localGoogleIds
          (CalendarService.listEventsLocalRecords tenantId startDate endDate
            searchQuery events today)))) = true := by
      rw [hgX]
      unfold CalendarService.gidMem
      simp only [Bool.not_eq_true']
      simp [List.contains, hXnotin]
    have hprojmem : CalendarService.googleEventProjection tenantId g ∈
        (gs.filter fun g2 => !(CalendarService.gidMem g2.id
          (CalendarService.localGoogleIds
            (CalendarService.listEventsLocalRecords tenantId startDate endDate
              searchQuery events today)))).map
          (CalendarService.googleEventProjection tenantId) :=
      List.mem_map.mpr ⟨g, List.mem_filter.mpr ⟨hg, hcond⟩, rfl⟩
    have hnodupProj : (((gs.filter fun g2 => !(CalendarService.gidMem g2.id
        (CalendarService.localGoogleIds
          (CalendarService.listEventsLocalRecords tenantId startDate endDate
            searchQuery events today)))).map
          (CalendarService.googleEventProjection tenantId)).filterMap
            (fun v => v.googleEventId)).Nodup := by
      rw [List.filterMap_map]
      exact ((List.filter_sublist gs).filterMap (fun g2 => g2.id)).nodup
        hnodupRemote
    have hproj : ((gs.filter fun g2 => !(CalendarService.gidMem g2.id
          (CalendarService.localGoogleIds
            (CalendarService.listEventsLocalRecords tenantId startDate endDate
              searchQuery events today)))).map
          (CalendarService.googleEventProjection tenantId)).filter
            (fun v => v.googleEventId == some X)
        = [CalendarService.googleEventProjection tenantId g] :=
      filter_key_eq_singleton (fun v => v.googleEventId) _ _ X hnodupProj
        hprojmem hgX
    have hlocal : (CalendarService.listEventsLocalRecords tenantId startDate
        endDate searchQuery events today).filter
          (fun v => v.googleEventId == some X) = [] := by
      rw [List.filter_eq_nil_iff]
      intro v hv hpv
      rw [beq_iff_eq] at hpv
      exact hXnotin (mem_localGoogleIds _ v hv X hpv hXne)
    have := hfilter_perm (fun v => v.googleEventId == some X)
    rw [hlocal, hproj, List.nil_append] at this
    exact ⟨List.perm_singleton.mp this, rfl, rfl, rfl⟩
  · rw [heq]
    exact sortByStart_sorted _

/-- Witness for C4: a mirrored event fetched in range suppresses the remote
copy — the merged list's only `"X"` event is the local row. -/
theorem listEvents_merge_amended_witness :
    ((CalendarService.listEvents 1 (some 0) (some 0) none true (some 1) [{ id := 8, tenantId := 1, title := "Local", startDatetime := 36000, googleEventId := some "X", syncStatus := .synced }] 0 (.ok [{ id := some "X", summary := some "Remote", startDatetime := 36000, endDatetime := some 39600 }])).events.filter (fun v => v.googleEventId == some "X"))
      = [{ id := 8, tenantId := 1, title := "Local", startDatetime := 36000, googleEventId := some "X", syncStatus := .synced }] :=
  (listEvents_merge_amended 1 (some 0) (some 0) none 1 [{ id := 8, tenantId := 1, title := "Local", startDatetime := 36000, googleEventId := some "X", syncStatus := .synced }] 0 [{ id := some "X", summary := some "Remote", startDatetime := 36000, endDatetime := some 39600 }] (by decide) (by decide)).1 { id := 8, tenantId := 1, title := "Local", startDatetime := 36000, googleEventId := some "X", syncStatus := .synced } (by decide) "X" rfl (by decide)

end CalendarSpec
